import Mathlib

/-!
Verification development for the ModelForge run-execution engine
(`apps/api` server, single-file Fastify application).

The definitions below are shallow embeddings of the TypeScript source:
pure fragments become Lean functions, SQL tables become lists of row
structures in table (rowid) order, and the dynamic JSON values flowing
through the judge become an explicit `Json` inductive with JavaScript
truthiness.  Definitions named after source symbols are transliterated
from the source; definitions whose names start with `spec` follow the
natural-language specification instead, for refinement comparisons.
-/

namespace ModelForge

/-! ## Generic string helpers (JS `String` operations used by the source) -/

/-- `listStartsWith s w` : the character list `w` occurs at the head of `s`. -/
def listStartsWith : List Char → List Char → Bool
  | _, [] => true
  | [], _ :: _ => false
  | a :: as, b :: bs => a == b && listStartsWith as bs

/-- `listHasSub w s` : `w` occurs contiguously somewhere in `s`
(JS `String.prototype.includes`). -/
def listHasSub (w : List Char) : List Char → Bool
  | [] => w.isEmpty
  | c :: rest => listStartsWith (c :: rest) w || listHasSub w rest

/-- JS `haystack.includes(needle)`. -/
def containsSub (hay needle : String) : Bool :=
  listHasSub needle.toList hay.toList

/-- Regex word character class `\w` = `[A-Za-z0-9_]`. -/
def isWordChar (c : Char) : Bool :=
  ('A' ≤ c && c ≤ 'Z') || ('a' ≤ c && c ≤ 'z') || ('0' ≤ c && c ≤ '9') || c == '_'

/-- Boundary test used for `\b`: the optional neighbouring character is
absent or not a word character. -/
def boundaryOk : Option Char → Bool
  | none => true
  | some c => !isWordChar c

/-- The word `w` occurs at the head of `s` with word boundaries on both
sides; `prev` is the character just before `s` in the full string. -/
def wordAt (s w : List Char) (prev : Option Char) : Bool :=
  listStartsWith s w && boundaryOk prev && boundaryOk (s.drop w.length).head?

/-- Scan for `\b w \b` anywhere in the string. -/
def containsWordGo (w : List Char) : List Char → Option Char → Bool
  | [], _ => false
  | c :: rest, prev => wordAt (c :: rest) w prev || containsWordGo w rest (some c)

/-- JS regex test `/\bW\b/.test(s)` for a plain word `W`. -/
def containsWord (s w : String) : Bool :=
  containsWordGo w.toList s.toList none

/-- JS regex test `/^W\b/.test(s)` for a plain word `W`. -/
def startsWord (s w : String) : Bool :=
  wordAt s.toList w.toList none

/-- JS `s.trim()` (ASCII whitespace at both ends). -/
def jsTrim (s : String) : String :=
  (((s.toList.dropWhile Char.isWhitespace).reverse.dropWhile
    Char.isWhitespace).reverse).asString

/-- JS `s.slice(0, n)`. -/
def jsSlice (s : String) (n : Nat) : String :=
  (s.toList.take n).asString

/-- `baseUrl.replace(/\/+$/, '')`: strip trailing slashes. -/
def stripTrailingSlashes (s : String) : String :=
  ((s.toList.reverse.dropWhile (· == '/')).reverse).asString

/-- JS `s.toLowerCase().replace(/[^a-z0-9]+/g, '')` — the adapter-kind
normalizer `norm` of `callModel` / `callModelWithStreaming`. -/
def normAdapter (s : String) : String :=
  ((s.toList.map Char.toLower).filter
    (fun c => ('a' ≤ c && c ≤ 'z') || ('0' ≤ c && c ≤ '9'))).asString

/-! ## JSON values with JavaScript semantics

`JSON.parse` produces a value of this type (`Option Json` below:
`none` models a parse exception).  Field access on a non-object yields
`undefined`, which we model as `Option.none` at use sites. -/

inductive Json where
  | jnull : Json
  | jbool : Bool → Json
  | jnum : Int → Json
  | jstr : String → Json
  | jarr : List Json → Json
  | jobj : List (String × Json) → Json

/-- JS truthiness of a defined value. -/
def Json.truthy : Json → Bool
  | .jnull => false
  | .jbool b => b
  | .jnum n => n != 0
  | .jstr s => !s.isEmpty
  | .jarr _ => true
  | .jobj _ => true

/-- Property access `v[k]`: `some` for an object field that is present,
`none` for `undefined` (missing field or non-object receiver). -/
def Json.getField : Json → String → Option Json
  | .jobj fs, k => (fs.find? (fun p => p.1 == k)).map Prod.snd
  | _, _ => none

/-- JS `x || d` where `x` may be `undefined` (`none`). -/
def jsOr (v : Option Json) (dflt : Json) : Json :=
  match v with
  | some j => if j.truthy then j else dflt
  | none => dflt

/-! ## Judge verdict parsing (`processModelForProblem`, judge section)

```js
let pass = false; let reasoning = 'No reasoning provided'; let score = 0;
try {
  const judgeResponse = JSON.parse(verdictText.trim());
  pass = judgeResponse.verdict === 'PASS';
  reasoning = judgeResponse.reasoning || 'No reasoning provided';
  score = judgeResponse.score || (pass ? 100 : 0);
} catch (e) {
  const normalized = String(verdictText ?? '').trim().toUpperCase();
  const isFail = /\bFAIL\b/.test(normalized);
  const isPass = /\bPASS\b/.test(normalized) || /^YES\b/.test(normalized);
  pass = isPass && !isFail;
  reasoning = `Simple verdict: ...`;
  score = pass ? 100 : 0;
}
```
`parsed` is the result of `JSON.parse(verdictText.trim())`: `none` when
the parse throws.  Accessing `.verdict` on parsed `null` throws a
`TypeError`, which the same `catch` turns into the fallback. -/

structure JudgeVerdict where
  pass : Bool
  score : Json
  reasoning : Json

/-- `verdict === 'PASS'` (strict string equality). -/
def isStrPASS : Option Json → Bool
  | some (.jstr s) => s == "PASS"
  | _ => false

/-- The catch-branch textual fallback of the judge parser. -/
def judgeFallback (verdictText : String) : JudgeVerdict :=
  let normalized := (((jsTrim verdictText).toList.map Char.toUpper)).asString
  let isFail := containsWord normalized "FAIL"
  let isPass := containsWord normalized "PASS" || startsWord normalized "YES"
  let pass := isPass && !isFail
  { pass := pass
    score := .jnum (if pass then 100 else 0)
    reasoning := .jstr ("Simple verdict: " ++ (if pass then "PASS" else "FAIL")
      ++ ". Full response: " ++ jsSlice verdictText 200) }

/-- The judge parser as implemented (source transliteration). -/
def parseJudgeResponse : Option Json → String → JudgeVerdict
  | none, txt => judgeFallback txt
  | some .jnull, txt => judgeFallback txt
  | some j, _ =>
    let pass := isStrPASS (j.getField "verdict")
    let reasoning := jsOr (j.getField "reasoning") (.jstr "No reasoning provided")
    let score := jsOr (j.getField "score") (.jnum (if pass then 100 else 0))
    { pass := pass, score := score, reasoning := reasoning }

/-- Modelled from the spec's words for the judge parser (C3 reference):
on the JSON branch the score defaults to 100-if-pass-else-0 *only when
the score field is missing from the response*; otherwise the response's
score is taken as is.  The fallback branch is as documented (identical
to the implementation's). -/
def specJudgeParse : Option Json → String → JudgeVerdict
  | none, txt => judgeFallback txt
  | some .jnull, txt => judgeFallback txt
  | some j, _ =>
    let pass := isStrPASS (j.getField "verdict")
    let reasoning := jsOr (j.getField "reasoning") (.jstr "No reasoning provided")
    let score :=
      match j.getField "score" with
      | some v => v
      | none => .jnum (if pass then 100 else 0)
    { pass := pass, score := score, reasoning := reasoning }

/-- The amended reference for the judge parser: the score default also
applies when the score field is present but *falsy* (0, null, false,
empty string), i.e. the default is taken unless the field is truthy. -/
def specJudgeParseFalsy : Option Json → String → JudgeVerdict
  | none, txt => judgeFallback txt
  | some .jnull, txt => judgeFallback txt
  | some j, _ =>
    let pass := isStrPASS (j.getField "verdict")
    let reasoning := jsOr (j.getField "reasoning") (.jstr "No reasoning provided")
    let score :=
      match j.getField "score" with
      | some v => if v.truthy then v else .jnum (if pass then 100 else 0)
      | none => .jnum (if pass then 100 else 0)
    { pass := pass, score := score, reasoning := reasoning }

/-! ## Retry policy (`withRetry`)

```js
for (let attempt = 0; attempt <= maxRetries; attempt++) {
  try { return await operation(); }
  catch (error) {
    if (msg includes 401/403/404) throw error;
    if (attempt === maxRetries) throw error;
    await sleep(baseDelay * 2 ** attempt);
  }
}
```
The operation is modelled as a function from the attempt index to its
outcome; the trace records the final result, the number of attempts
made, and the list of back-off sleeps (in ms) in order. -/

inductive Attempt (α : Type) where
  | ok : α → Attempt α
  | fail : String → Attempt α

/-- Non-retriable classification: the error message contains 401, 403
or 404 as a substring. -/
def errNonRetriable (msg : String) : Bool :=
  containsSub msg "401" || containsSub msg "403" || containsSub msg "404"

structure RetryTrace (α : Type) where
  result : Except String α
  attemptsMade : Nat
  sleeps : List Nat

/-- The retry loop; the last argument is `maxRetries - attempt`, the
number of further attempts allowed after the current one. -/
def retryLoop {α : Type} (op : Nat → Attempt α) (baseDelay attempt : Nat) :
    Nat → RetryTrace α
  | 0 =>
    match op attempt with
    | .ok v => ⟨.ok v, 1, []⟩
    | .fail msg => ⟨.error msg, 1, []⟩
  | r + 1 =>
    match op attempt with
    | .ok v => ⟨.ok v, 1, []⟩
    | .fail msg =>
      if errNonRetriable msg then ⟨.error msg, 1, []⟩
      else
        ⟨(retryLoop op baseDelay (attempt + 1) r).result,
         (retryLoop op baseDelay (attempt + 1) r).attemptsMade + 1,
         baseDelay * 2 ^ attempt :: (retryLoop op baseDelay (attempt + 1) r).sleeps⟩

/-- `withRetry(operation, maxRetries, baseDelay)`. -/
def withRetry {α : Type} (op : Nat → Attempt α) (maxRetries baseDelay : Nat) :
    RetryTrace α :=
  retryLoop op baseDelay 0 maxRetries

/-! ## Adapter dispatch (`callModel`, `callModelWithStreaming`)

Both dispatchers normalize the provider's adapter-kind string with
`normAdapter` and compare against alias lists.  The non-streaming
dispatcher (`callModel`) and the streaming one
(`callModelWithStreaming`) use *different* alias lists; the streaming
dispatcher falls through to `callModel` (emitting the whole result as a
single token) for any adapter kind its own branches do not match. -/

inductive AdapterBranch where
  | openaiCompat : AdapterBranch
  | anthropic : AdapterBranch
  | gemini : AdapterBranch
  | unsupported : AdapterBranch
deriving DecidableEq

/-- Branch selection of `callModel` (non-streaming), source order of the
alias checks preserved (`openai_compat` is kept although `normAdapter`
can never produce an underscore). -/
def completeDispatch (rawAdapter : String) : AdapterBranch :=
  let a := normAdapter rawAdapter
  if a == "openai" || a == "openaicompatible" || a == "openai_compat"
      || a == "openaicompat" || a == "oai" || a == "compatible" then
    .openaiCompat
  else if a == "anthropic" || a == "claude" then
    .anthropic
  else if a == "google" || a == "gemini" || a == "googlegenai" || a == "googleai" then
    .gemini
  else
    .unsupported

inductive StreamBranch where
  | openaiStream : StreamBranch
  | anthropicStream : StreamBranch
  | fallbackComplete : StreamBranch
deriving DecidableEq

/-- Branch selection of `callModelWithStreaming`: only the listed
normalized kinds get a true streaming branch; everything else reaches
the final fallback `callModel(...)` followed by `onToken(result)`. -/
def streamDispatch (rawAdapter : String) : StreamBranch :=
  let a := normAdapter rawAdapter
  if a == "openaicompat" || a == "openai_compat" || a == "openai" then
    .openaiStream
  else if a == "anthropic" then
    .anthropicStream
  else
    .fallbackComplete

/-- Token events delivered to `onToken` by the streaming fallback
branch: the full non-streaming result as one token. -/
def streamFallbackTokens (result : String) : List String :=
  [result]

/-! ## HTTP requests built by the adapters (`fetch` call sites)

Each `fetch(url, options)` call site passes `method`, `headers` and
`body` — and no `signal` key, so no `AbortSignal` reaches the HTTP
client.  `signal := none` below transliterates that absence. -/

structure FetchRequest where
  url : String
  method : String
  hasAuth : Bool
  streamFlag : Bool
  signal : Option String

/-- `callModel`, OpenAI-compatible branch `fetch`. -/
def openaiCompleteRequest (baseUrl apiKey : String) : FetchRequest :=
  { url := stripTrailingSlashes baseUrl ++ "/chat/completions"
    method := "POST"
    hasAuth := !apiKey.isEmpty
    streamFlag := false
    signal := none }

/-- `callModel`, Anthropic branch `fetch`. -/
def anthropicCompleteRequest (baseUrl apiKey : String) : FetchRequest :=
  { url := stripTrailingSlashes baseUrl ++ "/v1/messages"
    method := "POST"
    hasAuth := !apiKey.isEmpty
    streamFlag := false
    signal := none }

/-- `callModel`, Gemini branch `fetch` (key travels in the query
string; no Authorization header). -/
def geminiCompleteRequest (baseUrl modelId apiKey : String) : FetchRequest :=
  { url := stripTrailingSlashes baseUrl ++ "/v1beta/models/" ++ modelId
      ++ ":generateContent?key=" ++ apiKey
    method := "POST"
    hasAuth := false
    streamFlag := false
    signal := none }

/-- `callModelWithStreaming`, OpenAI-compatible streaming branch
`fetch`; the request body carries `stream: true` via `buildApiParams`. -/
def openaiStreamRequest (baseUrl apiKey : String) : FetchRequest :=
  { url := if baseUrl.endsWith "/" then baseUrl ++ "chat/completions"
      else baseUrl ++ "/chat/completions"
    method := "POST"
    hasAuth := !apiKey.isEmpty
    streamFlag := true
    signal := none }

/-- `callModelWithStreaming`, Anthropic streaming branch `fetch`; the
request body carries `stream: true` written literally. -/
def anthropicStreamRequest (baseUrl apiKey : String) : FetchRequest :=
  { url := if baseUrl.endsWith "/" then baseUrl ++ "messages"
      else baseUrl ++ "/messages"
    method := "POST"
    hasAuth := !apiKey.isEmpty
    streamFlag := true
    signal := none }

/-! ## The relational store

Tables become lists of row structures in table (rowid) order; a SQL
`SELECT ... WHERE` without `ORDER BY` returns rows in that order, and
inserts append.  Statuses are the literal strings the source stores. -/

structure ProblemSetRow where
  id : String
  name : String
  description : Option String
  created_at : Nat

structure ProblemRow where
  id : String
  problem_set_id : String
  type : String
  prompt : String
  expected_answer : Option String
  created_at : Nat

structure RunRow where
  id : String
  name : Option String
  problem_set_id : String
  model_ids : List String
  judge_model_id : String
  status : String
  created_at : Nat
  stream : Bool
  cancelled_at : Option Nat
  cancelled_by : Option String

structure RunResultRow where
  id : String
  run_id : String
  problem_id : String
  model_id : String
  output : Option String
  score : Option Json
  status : String
  judged_by : Option String
  judge_reasoning : Option Json
  created_at : Nat
  cancelled_at : Option Nat

structure DB where
  problem_sets : List ProblemSetRow
  problems : List ProblemRow
  runs : List RunRow
  run_results : List RunResultRow

def findRun (db : DB) (id : String) : Option RunRow :=
  db.runs.find? (fun r => r.id == id)

/-! ## Problem creation and the scheduler's problem query

`POST /api/problems` inserts a row stamped `created_at = now()`.
`POST /api/runs/:id/execute` loads the run's problems with
`SELECT * FROM problems WHERE problem_set_id = ?` — note: *no*
`ORDER BY` clause — and every model worker then iterates that list in
order (`for (const problem of problems)`).  By contrast
`GET /api/problems` uses `ORDER BY created_at ASC`, and the schema
migration comments document `problems.created_at` as existing "for
chronological ordering". -/

/-- `POST /api/problems`: append a new problem row with the current
timestamp. -/
def createProblem (db : DB) (pid setId ptype prompt : String)
    (expected : Option String) (t : Nat) : DB :=
  { db with problems := db.problems ++
      [{ id := pid, problem_set_id := setId, type := ptype, prompt := prompt,
         expected_answer := expected, created_at := t }] }

/-- The execute handler's problem load (no `ORDER BY`): table order. -/
def executeProblemsQuery (db : DB) (setId : String) : List ProblemRow :=
  db.problems.filter (fun p => p.problem_set_id == setId)

/-- `GET /api/problems?problemSetId=...` (with `ORDER BY created_at
ASC`), i.e. the client-observable chronological order; stable sort. -/
def problemsSortedQuery (db : DB) (setId : String) : List ProblemRow :=
  (executeProblemsQuery db setId).insertionSort
    (fun a b => a.created_at ≤ b.created_at)

/-- A problem list is in ascending created-at order. -/
def chronoSorted : List ProblemRow → Bool
  | [] => true
  | [_] => true
  | a :: b :: rest => a.created_at ≤ b.created_at && chronoSorted (b :: rest)

/-- Per-model worker iteration order: each worker walks the loaded
problem list front to back, so its events and RunResult inserts occur
in this problem order. -/
def workerProblemOrder (db : DB) (setId : String) : List String :=
  (executeProblemsQuery db setId).map (fun p => p.id)

/-! ## Execute gate (`POST /api/runs/:id/execute`, precondition part)

```js
if (!run) return reply.notFound('Run not found');
if (run.status === 'running') return reply.conflict('Run already running');
if (!run.judge_model_id || String(run.judge_model_id).trim().length === 0)
  return reply.badRequest(...);
```
No other status is examined before the run is switched to `running`. -/

inductive ExecuteDecision where
  | notFound : ExecuteDecision
  | conflict : ExecuteDecision
  | badRequestJudge : ExecuteDecision
  | accepted : ExecuteDecision
deriving DecidableEq

def executeGate (db : DB) (id : String) : ExecuteDecision :=
  match findRun db id with
  | none => .notFound
  | some run =>
    if run.status == "running" then .conflict
    else if (jsTrim run.judge_model_id).isEmpty then .badRequestJudge
    else .accepted

/-! ## Run cancellation (`POST /api/runs/:id/cancel`, store effects)

After aborting the in-memory cancel tokens the handler updates the run
row and then runs
`UPDATE run_results SET status='cancelled', cancelled_at=now()
 WHERE run_id = ? AND status IN ('pending', 'manual')`. -/

/-- Effect of the cancel endpoint's run-results `UPDATE` on one row. -/
def cancelResultRow (id : String) (t : Nat) (r : RunResultRow) : RunResultRow :=
  if r.run_id == id && (r.status == "pending" || r.status == "manual") then
    { r with status := "cancelled", cancelled_at := some t }
  else r

def cancelRunEndpoint (db : DB) (id : String) (t : Nat) : Except String DB :=
  match findRun db id with
  | none => .error "Run not found"
  | some run =>
    if run.status != "running" && run.status != "queued" then
      .error "Can only cancel running or queued runs"
    else
      .ok { db with
        runs := db.runs.map (fun r =>
          if r.id == id then
            { r with
                status := "cancelled"
                cancelled_at := some t
                cancelled_by := some "user" }
          else r)
        run_results := db.run_results.map (cancelResultRow id t) }

/-! ## Manual review (`POST /api/run-results/:id/review`)

```js
if (!body || (body.decision !== 'pass' && body.decision !== 'fail'))
  return reply.badRequest('Invalid decision');
const row = ...; if (!row) return reply.notFound('Result not found');
const p = SELECT type FROM problems WHERE id = row.problem_id;
if (!p || p.type !== 'html')
  return reply.badRequest('Only HTML results can be manually reviewed');
UPDATE run_results SET score=?, status='completed', judged_by='human' ...
```
The handler never reads or checks `row.status`. -/

def manualReviewUpdate (decision : String) (r : RunResultRow) : RunResultRow :=
  { r with
      score := some (.jnum (if decision == "pass" then 100 else 0))
      status := "completed"
      judged_by := some "human" }

def reviewResult (db : DB) (rid decision : String) : Except String DB :=
  if decision != "pass" && decision != "fail" then
    .error "Invalid decision"
  else
    match db.run_results.find? (fun r => r.id == rid) with
    | none => .error "Result not found"
    | some row =>
      match db.problems.find? (fun p => p.id == row.problem_id) with
      | none => .error "Only HTML results can be manually reviewed"
      | some p =>
        if p.type != "html" then
          .error "Only HTML results can be manually reviewed"
        else
          .ok { db with run_results := db.run_results.map (fun r =>
            if r.id == rid then manualReviewUpdate decision r else r) }

/-! ## Cascading problem-set deletion (`DELETE /api/problem-sets/:id`)

The handler gathers the set's run ids and problem ids, disables
foreign-key enforcement if it was on, and inside one transaction
deletes run_results by each problem id, run_results by each run id,
runs of the set, problems of the set, and the set row; the `finally`
block re-enables foreign keys on every exit path.  `txFails` models the
transaction throwing (better-sqlite3 rolls back, the error propagates
through `finally`). -/

structure CascadeOutcome where
  result : Except String DB
  fkFinal : Bool

def deleteProblemSet (db : DB) (id : String) (fkOn : Bool) (txFails : Bool) :
    CascadeOutcome :=
  match db.problem_sets.find? (fun ps => ps.id == id) with
  | none => ⟨.error "Problem set not found", fkOn⟩
  | some _ =>
    let runIds := (db.runs.filter (fun r => r.problem_set_id == id)).map (fun r => r.id)
    let problemIds :=
      (db.problems.filter (fun p => p.problem_set_id == id)).map (fun p => p.id)
    if txFails then
      ⟨.error "transaction failed", fkOn⟩
    else
      ⟨.ok { problem_sets := db.problem_sets.filter (fun ps => ps.id != id)
             problems := db.problems.filter (fun p => p.problem_set_id != id)
             runs := db.runs.filter (fun r => r.problem_set_id != id)
             run_results := db.run_results.filter (fun rr =>
               !problemIds.contains rr.problem_id && !runIds.contains rr.run_id) },
        fkOn⟩

/-! ## RunResult writes of `processModelForProblem`

Each write is modelled as its effect on the affected row. -/

/-- Initial insert: `status = problem.type === 'html' ? 'manual' :
'pending'`, null output/score/judged_by. -/
def insertRunResult (rrId runId problemId modelId problemType : String)
    (t : Nat) : RunResultRow :=
  { id := rrId, run_id := runId, problem_id := problemId, model_id := modelId,
    output := none, score := none,
    status := if problemType == "html" then "manual" else "pending",
    judged_by := none, judge_reasoning := none, created_at := t,
    cancelled_at := none }

/-- `UPDATE run_results SET output=@output WHERE id=@id`. -/
def setOutputUpdate (output : String) (r : RunResultRow) : RunResultRow :=
  { r with output := some output }

/-- The judge write: stores the parsed verdict's score and reasoning as
produced, sets `status='completed'` and `judged_by=<judge model id>`.
No clamping or integrality check is applied to the score. -/
def judgeUpdate (output : String) (v : JudgeVerdict) (judgeModelId : String)
    (r : RunResultRow) : RunResultRow :=
  { r with
      output := some output
      score := some v.score
      status := "completed"
      judged_by := some judgeModelId
      judge_reasoning := some v.reasoning }

/-- Error write: `UPDATE run_results SET status='error' WHERE id=@id`. -/
def errorUpdate (r : RunResultRow) : RunResultRow :=
  { r with status := "error" }

/-- Cancellation write inside the worker: `status='cancelled',
cancelled_at=now()`. -/
def cancelUpdate (t : Nat) (r : RunResultRow) : RunResultRow :=
  { r with status := "cancelled", cancelled_at := some t }

/-! ## The score/status invariant (C5) -/

/-- The stored score is an integer in [0,100]. -/
def scoreOk : Option Json → Bool
  | some (.jnum n) => decide (0 ≤ n) && decide (n ≤ 100)
  | _ => false

/-- Claimed invariant: score non-null iff completed, and completed
implies an integral score in [0,100]. -/
def scoreInv (r : RunResultRow) : Prop :=
  (r.score.isSome = (r.status == "completed")) ∧
  (r.status = "completed" → scoreOk r.score = true)

instance (r : RunResultRow) : Decidable (scoreInv r) :=
  inferInstanceAs (Decidable ((r.score.isSome = (r.status == "completed")) ∧
    (r.status = "completed" → scoreOk r.score = true)))

/-- `Except.isOk` specialised to the store results used here. -/
def exceptOk {α : Type} : Except String α → Bool
  | .ok _ => true
  | .error _ => false

/-! ## Concrete store states used as test inputs -/

def emptySetRow : ProblemSetRow :=
  { id := "s1", name := "demo set", description := none, created_at := 1 }

/-- Store after two `POST /api/problems` calls whose `now()` values went
backwards (10, then 5): table order disagrees with created-at order. -/
def dbTwoProblems : DB :=
  createProblem
    (createProblem
      { problem_sets := [emptySetRow], problems := [], runs := [], run_results := [] }
      "p1" "s1" "text" "first question" (some "a") 10)
    "p2" "s1" "text" "second question" (some "b") 5

/-- A run that has already finished. -/
def completedRun : RunRow :=
  { id := "run1", name := none, problem_set_id := "s1",
    model_ids := ["m1"], judge_model_id := "j1", status := "completed",
    created_at := 2, stream := false, cancelled_at := none, cancelled_by := none }

/-- Store with a single completed run, for the execute gate. -/
def dbCompletedRun : DB :=
  { problem_sets := [emptySetRow], problems := [], runs := [completedRun],
    run_results := [] }

/-- An html problem row. -/
def htmlProblem : ProblemRow :=
  { id := "p1", problem_set_id := "s1", type := "html",
    prompt := "write a red button", expected_answer := none, created_at := 2 }

/-- A run-result that already completed (human decision already
recorded), not in `manual` status. -/
def completedResult : RunResultRow :=
  { id := "rr1", run_id := "run1", problem_id := "p1", model_id := "m1",
    output := some "<button>Hi</button>", score := some (.jnum 0),
    status := "completed", judged_by := some "human", judge_reasoning := none,
    created_at := 3, cancelled_at := none }

/-- Store for the manual-review endpoint tests. -/
def dbReview : DB :=
  { problem_sets := [emptySetRow], problems := [htmlProblem],
    runs := [completedRun], run_results := [completedResult] }

/-- A running run plus result rows in assorted statuses, for the
cancel endpoint. -/
def runningRun : RunRow :=
  { id := "run2", name := none, problem_set_id := "s1",
    model_ids := ["m1", "m2"], judge_model_id := "j1", status := "running",
    created_at := 4, stream := true, cancelled_at := none, cancelled_by := none }

def pendingResult : RunResultRow :=
  { id := "rr2", run_id := "run2", problem_id := "p1", model_id := "m1",
    output := none, score := none, status := "pending", judged_by := none,
    judge_reasoning := none, created_at := 5, cancelled_at := none }

def manualResult : RunResultRow :=
  { id := "rr3", run_id := "run2", problem_id := "p1", model_id := "m2",
    output := some "<div></div>", score := none, status := "manual",
    judged_by := none, judge_reasoning := none, created_at := 6,
    cancelled_at := none }

def doneResult : RunResultRow :=
  { id := "rr4", run_id := "run2", problem_id := "p1", model_id := "m1",
    output := some "4", score := some (.jnum 100), status := "completed",
    judged_by := some "j1", judge_reasoning := some (.jstr "correct"),
    created_at := 7, cancelled_at := none }

def otherRunResult : RunResultRow :=
  { id := "rr5", run_id := "run9", problem_id := "p1", model_id := "m1",
    output := none, score := none, status := "pending", judged_by := none,
    judge_reasoning := none, created_at := 8, cancelled_at := none }

def dbRunning : DB :=
  { problem_sets := [emptySetRow], problems := [htmlProblem],
    runs := [runningRun],
    run_results := [pendingResult, manualResult, doneResult, otherRunResult] }

/-- Store exercising the cascade: one set with a problem, a run on the
set, a run-result of that run, plus an unrelated set and run. -/
def otherSetRow : ProblemSetRow :=
  { id := "s2", name := "other set", description := none, created_at := 9 }

def otherSetProblem : ProblemRow :=
  { id := "p9", problem_set_id := "s2", type := "text", prompt := "keep me",
    expected_answer := none, created_at := 9 }

def otherSetRun : RunRow :=
  { id := "run9", name := none, problem_set_id := "s2",
    model_ids := ["m1"], judge_model_id := "j1", status := "queued",
    created_at := 9, stream := false, cancelled_at := none, cancelled_by := none }

def dbCascade : DB :=
  { problem_sets := [emptySetRow, otherSetRow]
    problems := [htmlProblem, otherSetProblem]
    runs := [completedRun, otherSetRun]
    run_results := [completedResult, otherRunResult] }

/-- A judge JSON response `{"verdict":"PASS","score":150,"reasoning":"generous"}`. -/
def judgeJson150 : Json :=
  .jobj [("verdict", .jstr "PASS"), ("score", .jnum 150),
         ("reasoning", .jstr "generous")]

/-- A judge JSON response `{"verdict":"PASS","score":0,"reasoning":"zero"}`. -/
def judgeJson0 : Json :=
  .jobj [("verdict", .jstr "PASS"), ("score", .jnum 0),
         ("reasoning", .jstr "zero")]

/-- Expected store after `review_result("rr1","pass")` on `dbReview`. -/
def reviewedResult : RunResultRow :=
  { completedResult with
      score := some (.jnum 100)
      status := "completed"
      judged_by := some "human" }

def dbReviewAfter : DB :=
  { dbReview with run_results := [reviewedResult] }

/-- Expected store after `cancel_run("run2")` at time 99 on `dbRunning`. -/
def cancelledRunningRun : RunRow :=
  { runningRun with
      status := "cancelled"
      cancelled_at := some 99
      cancelled_by := some "user" }

def cancelledPendingResult : RunResultRow :=
  { pendingResult with status := "cancelled", cancelled_at := some 99 }

def cancelledManualResult : RunResultRow :=
  { manualResult with status := "cancelled", cancelled_at := some 99 }

def dbRunningCancelled : DB :=
  { dbRunning with
      runs := [cancelledRunningRun]
      run_results := [cancelledPendingResult, cancelledManualResult,
        doneResult, otherRunResult] }

/-- Expected store after the cascade deletion of problem set `s1` on
`dbCascade`: `otherRunResult` is removed too, because its problem `p1`
belongs to the deleted set even though its run does not. -/
def dbCascadeAfter : DB :=
  { problem_sets := [otherSetRow], problems := [otherSetProblem],
    runs := [otherSetRun], run_results := [] }

/-! # Claim theorems -/

/-- C1 (code bug): the execute handler's problem load has no
`ORDER BY`, so it returns table order, and each model worker iterates
exactly that order.  After two `POST /api/problems` calls whose `now()`
stamps went backwards (10, then 5), the run processes `p1` (created at
10) before `p2` (created at 5): not ascending created-at order, and the
opposite of the chronological order `GET /api/problems` reports for the
same set. -/
theorem executeOrder_ignores_created_at :
    (executeProblemsQuery dbTwoProblems "s1").map (fun p => (p.id, p.created_at))
      = [("p1", 10), ("p2", 5)] ∧
    workerProblemOrder dbTwoProblems "s1" = ["p1", "p2"] ∧
    chronoSorted (executeProblemsQuery dbTwoProblems "s1") = false ∧
    (problemsSortedQuery dbTwoProblems "s1").map (fun p => p.id) = ["p2", "p1"] :=
  ⟨rfl, rfl, rfl, rfl⟩

/-- C3 (counterexample): on the judge response
`{"verdict":"PASS","score":0,"reasoning":"zero"}` the implementation's
`judgeResponse.score || (pass ? 100 : 0)` replaces the present-but-falsy
score 0 with 100, while the spec's reference (default only when the
score is *missing*) keeps 0 — so the parsed triples differ. -/
theorem judgeParse_counterexample :
    parseJudgeResponse (some judgeJson0) "judge reply" ≠
      specJudgeParse (some judgeJson0) "judge reply" := by
  intro h
  have h2 : (Json.jnum 100) = (Json.jnum 0) := congrArg JudgeVerdict.score h
  injection h2 with h3
  omega

/-- C3 (amended): for every parse result and response string, the
implementation's (pass, score, reasoning) triple equals the reference
in which the JSON-branch score default (100 if pass else 0) applies
when the score field is missing *or falsy* (0, null, false, empty
string); the parse-failure fallback is exactly as the claim states. -/
theorem judgeParse_matches_falsy_reference (parsed : Option Json)
    (txt : String) :
    parseJudgeResponse parsed txt = specJudgeParseFalsy parsed txt := by
  cases parsed with
  | none => rfl
  | some j => cases j <;> rfl

/-- C5 (counterexample): starting from a fresh pending row (which does
satisfy the claimed invariant), the judge write for the response
`{"verdict":"PASS","score":150,"reasoning":"generous"}` stores the
out-of-range score 150 with status `completed`, violating the claimed
score-domain invariant: the judge update applies no validation. -/
theorem scoreInvariant_counterexample :
    scoreInv (insertRunResult "rr" "run" "p" "m" "text" 5) ∧
    ¬ scoreInv
      (judgeUpdate "161" (parseJudgeResponse (some judgeJson150) "judge reply")
        "j1" (insertRunResult "rr" "run" "p" "m" "text" 5)) ∧
    (judgeUpdate "161" (parseJudgeResponse (some judgeJson150) "judge reply")
        "j1" (insertRunResult "rr" "run" "p" "m" "text" 5)).status
      = "completed" ∧
    (judgeUpdate "161" (parseJudgeResponse (some judgeJson150) "judge reply")
        "j1" (insertRunResult "rr" "run" "p" "m" "text" 5)).score
      = some (.jnum 150) :=
  ⟨by decide, by decide, rfl, rfl⟩

/-- C5 (amended): the score/status invariant (score non-null iff
completed; completed score an integer in [0,100]) is established by the
initial insert and preserved by the output update, the worker and
endpoint cancellation updates, the error update (each applied before
completion, as at their call sites) and the manual review; the judge
update — which stores the judge-reported score unvalidated — preserves
it exactly when the parsed verdict's score is an integer in [0,100],
which the textual fallback always guarantees. -/
theorem scoreInvariant_by_operation :
    (∀ rrId runId problemId modelId ptype : String, ∀ t : Nat,
      scoreInv (insertRunResult rrId runId problemId modelId ptype t)) ∧
    (∀ out : String, ∀ r : RunResultRow,
      scoreInv r → scoreInv (setOutputUpdate out r)) ∧
    (∀ t : Nat, ∀ r : RunResultRow, r.status ≠ "completed" →
      scoreInv r → scoreInv (cancelUpdate t r)) ∧
    (∀ r : RunResultRow, r.status ≠ "completed" →
      scoreInv r → scoreInv (errorUpdate r)) ∧
    (∀ decision : String, ∀ r : RunResultRow,
      scoreInv (manualReviewUpdate decision r)) ∧
    (∀ id : String, ∀ t : Nat, ∀ r : RunResultRow,
      scoreInv r → scoreInv (cancelResultRow id t r)) ∧
    (∀ out : String, ∀ v : JudgeVerdict, ∀ j : String, ∀ r : RunResultRow,
      (scoreInv (judgeUpdate out v j r) ↔ scoreOk (some v.score) = true)) ∧
    (∀ txt : String, scoreOk (some (judgeFallback txt).score) = true) := by
  refine ⟨?ins, ?outp, ?canc, ?err, ?rev, ?cancRow, ?jdg, ?fb⟩
  case ins =>
    intro rrId runId problemId modelId ptype t
    unfold scoreInv insertRunResult
    constructor
    · simp only []
      split <;> rfl
    · intro h
      simp only [] at h
      split at h <;> simp_all
  case outp =>
    intro out r h
    exact h
  case canc =>
    intro t r hne h
    obtain ⟨h1, _⟩ := h
    have hb : (r.status == "completed") = false := by
      rw [beq_eq_false_iff_ne]; exact hne
    refine ⟨?_, ?_⟩
    · show r.score.isSome = (("cancelled" : String) == "completed")
      rw [h1, hb]; rfl
    · intro hc
      exact absurd hc (show ("cancelled" : String) ≠ "completed" by decide)
  case err =>
    intro r hne h
    obtain ⟨h1, _⟩ := h
    have hb : (r.status == "completed") = false := by
      rw [beq_eq_false_iff_ne]; exact hne
    refine ⟨?_, ?_⟩
    · show r.score.isSome = (("error" : String) == "completed")
      rw [h1, hb]; rfl
    · intro hc
      exact absurd hc (show ("error" : String) ≠ "completed" by decide)
  case rev =>
    intro decision r
    refine ⟨rfl, fun _ => ?_⟩
    show scoreOk (some (.jnum (if decision == "pass" then 100 else 0))) = true
    split <;> decide
  case cancRow =>
    intro id t r h
    unfold cancelResultRow
    split
    next hcond =>
      obtain ⟨h1, _⟩ := h
      have hpm : r.status = "pending" ∨ r.status = "manual" := by
        rcases Bool.and_eq_true_iff.mp hcond with ⟨-, hor⟩
        rcases Bool.or_eq_true_iff.mp hor with hp | hm
        · exact Or.inl (beq_iff_eq.mp hp)
        · exact Or.inr (beq_iff_eq.mp hm)
      have hb : (r.status == "completed") = false := by
        rw [beq_eq_false_iff_ne]
        rcases hpm with hp | hp <;> rw [hp] <;> decide
      refine ⟨?_, ?_⟩
      · show r.score.isSome = (("cancelled" : String) == "completed")
        rw [h1, hb]; rfl
      · intro hc
        exact absurd hc (show ("cancelled" : String) ≠ "completed" by decide)
    next =>
      exact h
  case jdg =>
    intro out v j r
    constructor
    · intro h
      exact h.2 rfl
    · intro h
      exact ⟨rfl, fun _ => h⟩
  case fb =>
    intro txt
    unfold judgeFallback scoreOk
    simp only []
    split <;> decide

/-- C5 witness: the amended preservation facts applied at concrete
rows: cancelling a concrete pending row and human-passing a concrete
row both yield invariant-satisfying rows, and the concrete judge
verdict with score 150 fails the judge-update condition. -/
theorem scoreInvariant_by_operation_witness :
    scoreInv (cancelUpdate 11 pendingResult) ∧
    scoreInv (manualReviewUpdate "pass" completedResult) ∧
    ¬ scoreInv (judgeUpdate "161"
      (parseJudgeResponse (some judgeJson150) "judge reply") "j1" pendingResult) := by
  refine ⟨?_, ?_, ?_⟩
  · exact scoreInvariant_by_operation.2.2.1 11 pendingResult (by decide) (by decide)
  · exact scoreInvariant_by_operation.2.2.2.2.1 "pass" completedResult
  · intro h
    have h2 := (scoreInvariant_by_operation.2.2.2.2.2.2.1 "161"
      (parseJudgeResponse (some judgeJson150) "judge reply") "j1" pendingResult).mp h
    exact absurd h2 (by decide)

/-- C6 (counterexample): the review endpoint never reads the result's
current status: on a store whose result `rr1` is already `completed`
(for an html problem), `review_result("rr1","pass")` succeeds, although
the claim permits success only from status `manual`. -/
theorem review_counterexample :
    ((dbReview.run_results.find? (fun r => r.id == "rr1")).map
      (fun r => r.status)) = some "completed" ∧
    exceptOk (reviewResult dbReview "rr1" "pass") = true :=
  ⟨rfl, rfl⟩

/-- C6 (amended): `review_result(result_id, decision)` succeeds exactly
when the decision is `pass` or `fail`, the result row exists, and its
problem exists with kind html — the result's current status is *not*
checked; any rejection leaves the store unchanged (the operation
returns an error without writing), and on success the matched row gets
score 100 (pass) or 0 (fail), status `completed` and judged_by the
literal `human`, all other rows and tables unchanged. -/
theorem review_success_characterization (db : DB) (rid decision : String) :
    ((∃ db', reviewResult db rid decision = .ok db') ↔
      ((decision = "pass" ∨ decision = "fail") ∧
        ∃ row, db.run_results.find? (fun r => r.id == rid) = some row ∧
          ∃ p, db.problems.find? (fun q => q.id == row.problem_id) = some p ∧
            p.type = "html")) ∧
    (∀ db', reviewResult db rid decision = .ok db' →
      db'.run_results = db.run_results.map (fun r =>
        if r.id == rid then manualReviewUpdate decision r else r) ∧
      db'.problems = db.problems ∧ db'.runs = db.runs ∧
      db'.problem_sets = db.problem_sets) ∧
    (∀ r : RunResultRow,
      (manualReviewUpdate decision r).status = "completed" ∧
      (manualReviewUpdate decision r).judged_by = some "human" ∧
      (manualReviewUpdate decision r).score =
        some (.jnum (if decision == "pass" then 100 else 0))) := by
  refine ⟨?iff, ?eff, fun r => ⟨rfl, rfl, rfl⟩⟩
  case iff =>
    constructor
    · rintro ⟨db', hdb⟩
      unfold reviewResult at hdb
      split at hdb
      · exact absurd hdb (by simp)
      next hdec =>
        have hd : decision = "pass" ∨ decision = "fail" := by
          rw [Bool.not_eq_true] at hdec
          rcases Bool.and_eq_false_iff.mp hdec with h | h
          · exact Or.inl (by simpa using h)
          · exact Or.inr (by simpa using h)
        refine ⟨hd, ?_⟩
        split at hdb
        · exact absurd hdb (by simp)
        next row hrow =>
          refine ⟨row, hrow, ?_⟩
          split at hdb
          · exact absurd hdb (by simp)
          next p hp =>
            refine ⟨p, hp, ?_⟩
            split at hdb
            · exact absurd hdb (by simp)
            next hhtml =>
              rw [Bool.not_eq_true] at hhtml
              simpa using hhtml
    · rintro ⟨hd, row, hrow, p, hp, hhtml⟩
      unfold reviewResult
      have hdec : (decision != "pass" && decision != "fail") = false := by
        rcases hd with h | h <;> rw [h] <;> rfl
      rw [hdec]
      simp only [Bool.false_eq_true, if_false, hrow, hp]
      have : (p.type != "html") = false := by
        rw [hhtml]; rfl
      rw [this]
      exact ⟨_, rfl⟩
  case eff =>
    intro db' hdb
    unfold reviewResult at hdb
    split at hdb
    · exact absurd hdb (by simp)
    · split at hdb
      · exact absurd hdb (by simp)
      · split at hdb
        · exact absurd hdb (by simp)
        · split at hdb
          · exact absurd hdb (by simp)
          · rw [show db' = { db with run_results := db.run_results.map (fun r =>
              if r.id == rid then manualReviewUpdate decision r else r) } from
              (Except.ok.inj hdb).symm]
            exact ⟨rfl, rfl, rfl, rfl⟩

/-- C6 witness: on the concrete store `dbReview` the amended theorem
applies with `reviewResult dbReview "rr1" "pass" = .ok dbReviewAfter`
discharged by computation, giving the updated-row equation. -/
theorem review_success_characterization_witness :
    dbReviewAfter.run_results = dbReview.run_results.map (fun r =>
      if r.id == "rr1" then manualReviewUpdate "pass" r else r) :=
  ((review_success_characterization dbReview "rr1" "pass").2.1
    dbReviewAfter rfl).1

/-- C4 (counterexample): a run whose status is `completed` passes the
execute gate — the handler only rejects `running` (409) and a missing
judge model id — although the claim says a completed run is rejected. -/
theorem executeGate_counterexample :
    (findRun dbCompletedRun "run1").map (fun r => r.status)
      = some "completed" ∧
    executeGate dbCompletedRun "run1" = .accepted :=
  ⟨rfl, rfl⟩

/-- C4 (amended): for an existing run, the execute gate returns a 409
conflict exactly when the current status is `running`; when the judge
model id is non-blank, execution is accepted for *every* non-running
status — `queued` and `error`, but also `completed` and `cancelled`. -/
theorem executeGate_permits_nonrunning (db : DB) (id : String) (run : RunRow)
    (hfind : findRun db id = some run) :
    (executeGate db id = .conflict ↔ run.status = "running") ∧
    ((jsTrim run.judge_model_id).isEmpty = false →
      (executeGate db id = .accepted ↔ run.status ≠ "running")) := by
  have hg : executeGate db id =
      (if run.status == "running" then .conflict
       else if (jsTrim run.judge_model_id).isEmpty then .badRequestJudge
       else .accepted) := by
    unfold executeGate
    rw [hfind]
  rw [hg]
  by_cases hs : run.status = "running"
  · have hb : (run.status == "running") = true := by
      rw [beq_iff_eq]; exact hs
    rw [hb]
    refine ⟨by simp [hs], fun _ => ?_⟩
    simp [hs]
  · have hb : (run.status == "running") = false := by
      rw [beq_eq_false_iff_ne]; exact hs
    rw [hb]
    by_cases hj : (jsTrim run.judge_model_id).isEmpty
    · exact ⟨by simp [hj, hs], fun hjf => absurd (hj.symm.trans hjf) (by decide)⟩
    · have hjb : (jsTrim run.judge_model_id).isEmpty = false := by
        rwa [Bool.not_eq_true] at hj
      rw [hjb]
      exact ⟨by simp [hs], fun _ => by simp [hs]⟩

/-- C4 witness: the amended characterization applied to the concrete
completed run: its status is not `running`, so the gate accepts it. -/
theorem executeGate_permits_nonrunning_witness :
    executeGate dbCompletedRun "run1" = .accepted := by
  have h := executeGate_permits_nonrunning dbCompletedRun "run1"
    completedRun rfl
  exact (h.2 (by decide)).mpr (by decide)

/-- C10 (confirmed): a successful `cancel_run` requires the run to be
`running` or `queued` and then rewrites the run's result rows through
`cancelResultRow`: every row of that run whose status is `pending` or
`manual` becomes `cancelled` with `cancelled_at = now()` (non-null),
and every other row — terminal statuses `completed`, `cancelled`,
`error`, or rows of other runs — is unchanged, whether or not any
worker is in flight. -/
theorem cancelRun_marks_pending_and_manual (db : DB) (id : String) (t : Nat)
    (db' : DB) (h : cancelRunEndpoint db id t = .ok db') :
    (∃ run, findRun db id = some run ∧
      (run.status = "running" ∨ run.status = "queued")) ∧
    db'.run_results = db.run_results.map (cancelResultRow id t) ∧
    (∀ r : RunResultRow, r.run_id = id →
      (r.status = "pending" ∨ r.status = "manual") →
      (cancelResultRow id t r).status = "cancelled" ∧
      (cancelResultRow id t r).cancelled_at = some t) ∧
    (∀ r : RunResultRow,
      (r.run_id ≠ id ∨ (r.status ≠ "pending" ∧ r.status ≠ "manual")) →
      cancelResultRow id t r = r) := by
  refine ⟨?pre, ?eq, ?hit, ?miss⟩
  case pre =>
    unfold cancelRunEndpoint at h
    split at h
    · exact absurd h (by simp)
    next run hrun =>
      split at h
      · exact absurd h (by simp)
      next hcond =>
        refine ⟨run, hrun, ?_⟩
        rw [Bool.not_eq_true] at hcond
        rcases Bool.and_eq_false_iff.mp hcond with hc | hc
        · exact Or.inl (by simpa using hc)
        · exact Or.inr (by simpa using hc)
  case eq =>
    unfold cancelRunEndpoint at h
    split at h
    · exact absurd h (by simp)
    · split at h
      · exact absurd h (by simp)
      · rw [show db' = { db with
            runs := db.runs.map (fun r =>
              if r.id == id then
                { r with
                    status := "cancelled"
                    cancelled_at := some t
                    cancelled_by := some "user" }
              else r)
            run_results := db.run_results.map (cancelResultRow id t) } from
          (Except.ok.inj h).symm]
  case hit =>
    intro r hr hst
    have hcond : (r.run_id == id &&
        (r.status == "pending" || r.status == "manual")) = true := by
      rw [hr]
      rcases hst with hs | hs <;> rw [hs] <;> simp
    unfold cancelResultRow
    rw [hcond]
    exact ⟨rfl, rfl⟩
  case miss =>
    intro r hmiss
    have hcond : (r.run_id == id &&
        (r.status == "pending" || r.status == "manual")) = false := by
      rcases hmiss with hr | ⟨hp, hm⟩
      · exact Bool.and_eq_false_iff.mpr (Or.inl (beq_eq_false_iff_ne.mpr hr))
      · refine Bool.and_eq_false_iff.mpr (Or.inr ?_)
        rw [Bool.or_eq_false_iff]
        exact ⟨beq_eq_false_iff_ne.mpr hp, beq_eq_false_iff_ne.mpr hm⟩
    unfold cancelResultRow
    rw [hcond]
    rfl

/-- C10 witness: cancelling the concrete running run `run2` at time 99
yields exactly the expected store: `rr2` (pending) and `rr3` (manual)
become cancelled with a timestamp, `rr4` (completed) and `rr5` (another
run's row) are untouched. -/
theorem cancelRun_marks_pending_and_manual_witness :
    dbRunningCancelled.run_results =
      dbRunning.run_results.map (cancelResultRow "run2" 99) :=
  (cancelRun_marks_pending_and_manual dbRunning "run2" 99
    dbRunningCancelled rfl).2.1

/-- C9 (confirmed): the cascade deletion of a problem set removes — in
one transaction — the set row, all its problems, all runs referencing
the set, and every run-result belonging to one of those runs or one of
those problems, so no surviving row references the deleted set; and the
foreign-key flag is restored to its incoming value on every exit path,
including a failed transaction and the not-found path. -/
theorem cascadeDelete_leaves_no_orphans (db : DB) (id : String)
    (fkOn txFails : Bool) :
    (deleteProblemSet db id fkOn txFails).fkFinal = fkOn ∧
    (∀ db', (deleteProblemSet db id fkOn txFails).result = .ok db' →
      (∀ ps ∈ db'.problem_sets, ps.id ≠ id) ∧
      (∀ p ∈ db'.problems, p.problem_set_id ≠ id) ∧
      (∀ r ∈ db'.runs, r.problem_set_id ≠ id) ∧
      (∀ rr ∈ db'.run_results,
        (∀ r ∈ db.runs, r.problem_set_id = id → rr.run_id ≠ r.id) ∧
        (∀ p ∈ db.problems, p.problem_set_id = id → rr.problem_id ≠ p.id))) := by
  constructor
  · unfold deleteProblemSet
    split
    · rfl
    · split
      · rfl
      · rfl
  · intro db' h
    unfold deleteProblemSet at h
    split at h
    · exact absurd h (by simp)
    · split at h
      · exact absurd h (by simp)
      · have h2 : Except.ok (ε := String)
            { problem_sets := db.problem_sets.filter (fun ps => ps.id != id)
              problems := db.problems.filter (fun p => p.problem_set_id != id)
              runs := db.runs.filter (fun r => r.problem_set_id != id)
              run_results := db.run_results.filter (fun rr =>
                !((db.problems.filter (fun p => p.problem_set_id == id)).map
                    (fun p => p.id)).contains rr.problem_id &&
                !((db.runs.filter (fun r => r.problem_set_id == id)).map
                    (fun r => r.id)).contains rr.run_id) } = .ok db' := h
        have h3 := Except.ok.inj h2
        subst h3
        refine ⟨?_, ?_, ?_, ?_⟩
        · intro ps hps
          exact bne_iff_ne.mp (List.mem_filter.mp hps).2
        · intro p hp
          exact bne_iff_ne.mp (List.mem_filter.mp hp).2
        · intro r hr
          exact bne_iff_ne.mp (List.mem_filter.mp hr).2
        · intro rr hrr
          have hc := (List.mem_filter.mp hrr).2
          rcases Bool.and_eq_true_iff.mp hc with ⟨hcp, hcr⟩
          have hcp2 : ((db.problems.filter (fun p => p.problem_set_id == id)).map
              (fun p => p.id)).contains rr.problem_id = false := by
            simpa using hcp
          have hcr2 : ((db.runs.filter (fun r => r.problem_set_id == id)).map
              (fun r => r.id)).contains rr.run_id = false := by
            simpa using hcr
          constructor
          · intro r hrm hrset heq
            have hmem : rr.run_id ∈ (db.runs.filter
                (fun q => q.problem_set_id == id)).map (fun q => q.id) := by
              rw [heq]
              exact List.mem_map.mpr ⟨r,
                List.mem_filter.mpr ⟨hrm, beq_iff_eq.mpr hrset⟩, rfl⟩
            have hct : ((db.runs.filter (fun q => q.problem_set_id == id)).map
                (fun q => q.id)).contains rr.run_id = true := by
              simpa using hmem
            exact absurd (hct.symm.trans hcr2) (by decide)
          · intro p hpm hpset heq
            have hmem : rr.problem_id ∈ (db.problems.filter
                (fun q => q.problem_set_id == id)).map (fun q => q.id) := by
              rw [heq]
              exact List.mem_map.mpr ⟨p,
                List.mem_filter.mpr ⟨hpm, beq_iff_eq.mpr hpset⟩, rfl⟩
            have hct : ((db.problems.filter (fun q => q.problem_set_id == id)).map
                (fun q => q.id)).contains rr.problem_id = true := by
              simpa using hmem
            exact absurd (hct.symm.trans hcp2) (by decide)

/-- C9 witness: deleting set `s1` from the concrete two-set store with
foreign keys on and a succeeding transaction keeps the other set's
problem and restores the foreign-key flag. -/
theorem cascadeDelete_leaves_no_orphans_witness :
    otherSetProblem.problem_set_id ≠ "s1" ∧
    (deleteProblemSet dbCascade "s1" true false).fkFinal = true := by
  have h := cascadeDelete_leaves_no_orphans dbCascade "s1" true false
  refine ⟨(h.2 dbCascadeAfter rfl).2.1 otherSetProblem ?_, h.1⟩
  show otherSetProblem ∈ dbCascadeAfter.problems
  exact List.mem_singleton.mpr rfl

/-- Equation: a successful attempt stops the retry loop immediately. -/
theorem retryLoop_ok {α : Type} (op : Nat → Attempt α) (d a r : Nat) (v : α)
    (h : op a = .ok v) : retryLoop op d a r = ⟨.ok v, 1, []⟩ := by
  cases r <;> unfold retryLoop <;> rw [h]

/-- Equation: a non-retriable failure stops the retry loop immediately
with that failure, no matter how many retries remain. -/
theorem retryLoop_nonretriable {α : Type} (op : Nat → Attempt α)
    (d a r : Nat) (msg : String) (h : op a = .fail msg)
    (hnr : errNonRetriable msg = true) :
    retryLoop op d a r = ⟨.error msg, 1, []⟩ := by
  cases r <;> unfold retryLoop <;> rw [h] <;> simp [hnr]

/-- Equation: on the last allowed attempt any failure is raised. -/
theorem retryLoop_last {α : Type} (op : Nat → Attempt α) (d a : Nat)
    (msg : String) (h : op a = .fail msg) :
    retryLoop op d a 0 = ⟨.error msg, 1, []⟩ := by
  unfold retryLoop
  rw [h]

/-- Equation: a retriable failure with retries remaining sleeps
`d * 2 ^ attempt` and continues with the next attempt. -/
theorem retryLoop_step {α : Type} (op : Nat → Attempt α) (d a r : Nat)
    (msg : String) (h : op a = .fail msg)
    (hnr : errNonRetriable msg = false) :
    retryLoop op d a (r + 1) =
      ⟨(retryLoop op d (a + 1) r).result,
       (retryLoop op d (a + 1) r).attemptsMade + 1,
       d * 2 ^ a :: (retryLoop op d (a + 1) r).sleeps⟩ := by
  rw [show retryLoop op d a (r + 1) = (match op a with
      | .ok v => ⟨Except.ok v, 1, []⟩
      | .fail msg =>
        if errNonRetriable msg then ⟨.error msg, 1, []⟩
        else ⟨(retryLoop op d (a + 1) r).result,
              (retryLoop op d (a + 1) r).attemptsMade + 1,
              d * 2 ^ a :: (retryLoop op d (a + 1) r).sleeps⟩) from rfl, h]
  dsimp only
  rw [hnr]
  simp

/-- Helper: the retry loop makes at most `r + 1` attempts. -/
theorem retryLoop_attemptsMade_le {α : Type} (op : Nat → Attempt α)
    (d : Nat) : ∀ r a : Nat, (retryLoop op d a r).attemptsMade ≤ r + 1 := by
  intro r
  induction r with
  | zero =>
    intro a
    cases h : op a with
    | ok v => rw [retryLoop_ok op d a 0 v h]
    | fail msg => rw [retryLoop_last op d a msg h]
  | succ n ih =>
    intro a
    cases h : op a with
    | ok v =>
      rw [retryLoop_ok op d a (n + 1) v h]
      simp
    | fail msg =>
      by_cases hnr : errNonRetriable msg
      · rw [retryLoop_nonretriable op d a (n + 1) msg h hnr]
        simp
      · have hnr2 : errNonRetriable msg = false := by
          rwa [Bool.not_eq_true] at hnr
        rw [retryLoop_step op d a n msg h hnr2]
        have := ih (a + 1)
        simp only []
        omega

/-- Helper: the retry loop's total back-off sleep starting at attempt
`a` with `r` retries left is at most `d * 2 ^ a * (2 ^ r - 1)`. -/
theorem retryLoop_sleeps_sum_le {α : Type} (op : Nat → Attempt α)
    (d : Nat) : ∀ r a : Nat,
    (retryLoop op d a r).sleeps.sum ≤ d * 2 ^ a * (2 ^ r - 1) := by
  intro r
  induction r with
  | zero =>
    intro a
    cases h : op a with
    | ok v => rw [retryLoop_ok op d a 0 v h]; simp
    | fail msg => rw [retryLoop_last op d a msg h]; simp
  | succ n ih =>
    intro a
    cases h : op a with
    | ok v =>
      rw [retryLoop_ok op d a (n + 1) v h]
      simp
    | fail msg =>
      by_cases hnr : errNonRetriable msg
      · rw [retryLoop_nonretriable op d a (n + 1) msg h hnr]
        simp
      · have hnr2 : errNonRetriable msg = false := by
          rwa [Bool.not_eq_true] at hnr
        rw [retryLoop_step op d a n msg h hnr2]
        have hrec := ih (a + 1)
        obtain ⟨k, hk⟩ := Nat.exists_eq_add_of_le (Nat.one_le_two_pow (n := n))
        have e1 : 2 ^ n - 1 = k := by omega
        have e2 : 2 ^ (n + 1) - 1 = 2 * k + 1 := by
          rw [pow_succ]; omega
        rw [e1, pow_succ] at hrec
        simp only [List.sum_cons]
        rw [e2]
        calc d * 2 ^ a + (retryLoop op d (a + 1) n).sleeps.sum
            ≤ d * 2 ^ a + d * (2 ^ a * 2) * k :=
              Nat.add_le_add_left hrec _
          _ = d * 2 ^ a * (2 * k + 1) := by ring

/-- C8 (confirmed): `withRetry` as wired (`maxRetries = 3`,
`baseDelay = 1000` at every call site) makes at most 4 attempts, sleeps
at most 1000+2000+4000 = 7000 ms in total, raises immediately (one
attempt, no sleep) when the first failure's message contains 401, 403
or 404, and after four retriable failures raises the last failure with
the sleeps 1s, 2s, 4s having occurred between successive attempts. -/
theorem withRetry_policy {α : Type} (op : Nat → Attempt α) :
    (withRetry op 3 1000).attemptsMade ≤ 4 ∧
    (withRetry op 3 1000).sleeps.sum ≤ 7000 ∧
    (∀ msg : String, op 0 = .fail msg → errNonRetriable msg = true →
      withRetry op 3 1000 = ⟨.error msg, 1, []⟩) ∧
    (∀ m0 m1 m2 m3 : String,
      op 0 = .fail m0 → errNonRetriable m0 = false →
      op 1 = .fail m1 → errNonRetriable m1 = false →
      op 2 = .fail m2 → errNonRetriable m2 = false →
      op 3 = .fail m3 →
      (withRetry op 3 1000).result = .error m3 ∧
      (withRetry op 3 1000).sleeps = [1000, 2000, 4000]) := by
  refine ⟨?att, ?slp, ?imm, ?last⟩
  case att => exact retryLoop_attemptsMade_le op 1000 3 0
  case slp =>
    have h := retryLoop_sleeps_sum_le op 1000 3 0
    norm_num at h
    exact h
  case imm =>
    intro msg h0 hnr
    show retryLoop op 1000 0 3 = _
    rw [retryLoop_nonretriable op 1000 0 3 msg h0 hnr]
  case last =>
    intro m0 m1 m2 m3 h0 e0 h1 e1 h2 e2 h3
    have key : withRetry op 3 1000 =
        ⟨.error m3, 4, [1000 * 2 ^ 0, 1000 * 2 ^ 1, 1000 * 2 ^ 2]⟩ := by
      show retryLoop op 1000 0 (2 + 1) = _
      rw [retryLoop_step op 1000 0 2 m0 h0 e0,
        retryLoop_step op 1000 1 1 m1 h1 e1,
        retryLoop_step op 1000 2 0 m2 h2 e2,
        retryLoop_last op 1000 3 m3 h3]
    rw [key]
    norm_num

/-- C8 witness: the policy applied to two concrete operations — one
failing retriably on every attempt (4 attempts, sleeps 1s, 2s, 4s, the
last failure raised) and one failing with a 401 (raised immediately
with no sleep). -/
theorem withRetry_policy_witness :
    (withRetry (fun _ => (Attempt.fail "boom" : Attempt String)) 3 1000).result
      = .error "boom" ∧
    (withRetry (fun _ => (Attempt.fail "boom" : Attempt String)) 3 1000).sleeps
      = [1000, 2000, 4000] ∧
    withRetry (fun _ =>
        (Attempt.fail "OpenAI-compatible error: 401 nope" : Attempt String))
      3 1000
      = ⟨.error "OpenAI-compatible error: 401 nope", 1, []⟩ := by
  refine ⟨?_, ?_, ?_⟩
  · exact ((withRetry_policy
      (fun _ => (Attempt.fail "boom" : Attempt String))).2.2.2 "boom" "boom"
      "boom" "boom" rfl (by decide) rfl (by decide) rfl (by decide) rfl).1
  · exact ((withRetry_policy
      (fun _ => (Attempt.fail "boom" : Attempt String))).2.2.2 "boom" "boom"
      "boom" "boom" rfl (by decide) rfl (by decide) rfl (by decide) rfl).2
  · exact (withRetry_policy (fun _ =>
      (Attempt.fail "OpenAI-compatible error: 401 nope" : Attempt String))).2.2.1
      "OpenAI-compatible error: 401 nope" rfl (by decide)

/-- C7 (counterexample): `oai`, `openaicompatible` (claimed aliases of
openai-compat) and `claude` (claimed alias of anthropic) are accepted
by the non-streaming dispatcher, yet the streaming dispatcher sends all
three to the non-streaming fallback instead of the streaming protocol
the claim requires. -/
theorem streamDispatch_counterexample :
    completeDispatch "oai" = .openaiCompat ∧
    streamDispatch "oai" = .fallbackComplete ∧
    completeDispatch "openaicompatible" = .openaiCompat ∧
    streamDispatch "openaicompatible" = .fallbackComplete ∧
    completeDispatch "claude" = .anthropic ∧
    streamDispatch "claude" = .fallbackComplete :=
  ⟨rfl, rfl, rfl, rfl, rfl, rfl⟩

/-- C7 (amended): the streaming dispatcher uses the OpenAI streaming
protocol exactly for normalized kinds `openaicompat` and `openai` (the
code also compares against the unreachable `openai_compat`), the
Anthropic streaming protocol exactly for normalized kind `anthropic`,
and for every other adapter kind — gemini kinds, but equally the
accepted non-streaming aliases `openaicompatible`, `oai`, `compatible`
and `claude` — falls back to the non-streaming call and emits the full
result as a single token; both true streaming branches send
`stream: true`. -/
theorem streamDispatch_branches (s : String) :
    (streamDispatch s = .openaiStream ↔
      (normAdapter s = "openaicompat" ∨ normAdapter s = "openai_compat" ∨
        normAdapter s = "openai")) ∧
    (streamDispatch s = .anthropicStream ↔
      (normAdapter s = "anthropic" ∧ normAdapter s ≠ "openaicompat" ∧
        normAdapter s ≠ "openai_compat" ∧ normAdapter s ≠ "openai")) ∧
    (streamDispatch s = .fallbackComplete ↔
      ¬(normAdapter s = "openaicompat" ∨ normAdapter s = "openai_compat" ∨
        normAdapter s = "openai" ∨ normAdapter s = "anthropic")) ∧
    (∀ res : String, streamFallbackTokens res = [res]) ∧
    (∀ b k : String, (openaiStreamRequest b k).streamFlag = true) ∧
    (∀ b k : String, (anthropicStreamRequest b k).streamFlag = true) := by
  have hg : streamDispatch s =
      (if normAdapter s == "openaicompat" || normAdapter s == "openai_compat"
          || normAdapter s == "openai" then .openaiStream
       else if normAdapter s == "anthropic" then .anthropicStream
       else .fallbackComplete) := rfl
  refine ⟨?_, ?_, ?_, fun res => rfl, fun b k => rfl, fun b k => rfl⟩ <;>
    rw [hg] <;>
    by_cases h1 : normAdapter s = "openaicompat" <;>
    by_cases h2 : normAdapter s = "openai_compat" <;>
    by_cases h3 : normAdapter s = "openai" <;>
    by_cases h4 : normAdapter s = "anthropic" <;>
    simp_all [beq_iff_eq]

/-- C7 witness: a gemini-kind adapter reaches the fallback branch via
the amended characterization. -/
theorem streamDispatch_branches_witness :
    streamDispatch "gemini" = .fallbackComplete :=
  ((streamDispatch_branches "gemini").2.2.1).mpr (by decide)

/-- C2 (counterexample): the `fetch` options built by the streaming and
non-streaming adapter calls carry no `signal` key at all, for concrete
providers: the cancel token is not wired into the HTTP client, contrary
to the claim. -/
theorem abortSignal_counterexample :
    (openaiStreamRequest "https://api.example.com/v1" "key").signal.isSome
      = false ∧
    (anthropicStreamRequest "https://api.anthropic.com/v1" "key").signal.isSome
      = false ∧
    (openaiCompleteRequest "https://api.example.com/v1" "key").signal.isSome
      = false :=
  ⟨rfl, rfl, rfl⟩

/-- C2 (amended): no adapter request — OpenAI-compatible, Anthropic or
Gemini, streaming or not — passes an `AbortSignal` to the HTTP client:
every request options object has `signal = none`, so triggering a
cancel token does not abort an in-flight stream read; cancellation is
observed only at the worker's explicit checks between steps. -/
theorem abortSignal_not_wired (baseUrl apiKey modelId : String) :
    (openaiCompleteRequest baseUrl apiKey).signal = none ∧
    (anthropicCompleteRequest baseUrl apiKey).signal = none ∧
    (geminiCompleteRequest baseUrl modelId apiKey).signal = none ∧
    (openaiStreamRequest baseUrl apiKey).signal = none ∧
    (anthropicStreamRequest baseUrl apiKey).signal = none :=
  ⟨rfl, rfl, rfl, rfl, rfl⟩

end ModelForge
